import Mathlib

/-!
Shallow embedding of the proof-of-work blockchain repository
(src/python/blockchain.py and src/python/pow_parallel.py) and proofs of
the specification claims about it.

Modelling conventions.

* Python floats (transaction amounts and timestamps) reach the hashing
  and serialization code only through their decimal string rendering
  (str inside f-strings and json.dumps both use repr), so each float is
  embedded as the String holding that rendering.
* hashlib.sha256(x.encode()).hexdigest() is an external library call; it
  is embedded as an abstract digest function H : String → String that is
  passed to every definition that hashes.  All theorems hold for every H.
* python str.startswith and slicing s[:k] are embedded as pyStartsWith
  and pySlice.
* json.dumps(xs, sort_keys=True) with the default separators is embedded
  concretely as jsonDumpsTxList; the default separators put a space
  after each comma and after each colon.
* while-loops are embedded as fuel-indexed recursion: a loop invocation
  returns none exactly when the given fuel is not enough for the loop to
  reach a return statement, so every terminating behaviour of the python
  loop is the value at some sufficient fuel.
* print diagnostics of validate_block and add_block are observable
  behaviour the spec talks about, so the validators return the list of
  printed lines next to their boolean result.
* the shared found_flag of the parallel workers is read-only inside one
  worker between its own writes; the values a worker observes at its
  periodic checks are supplied by an oracle flagAt : Nat → Bool indexed
  by the number of nonces tested so far.
-/

/-- Python str.startswith: the characters of pfx are an initial segment
of the characters of s. -/
def pyStartsWith (s pfx : String) : Bool :=
  pfx.data.isPrefixOf s.data

/-- Python slicing s[:k]. -/
def pySlice (s : String) (k : Nat) : String :=
  String.mk (s.data.take k)

/-- The python expression "0" * d, the required difficulty value. -/
def zeros (d : Nat) : String :=
  String.mk (List.replicate d '0')

/-- Transaction (blockchain.py lines 9-16): sender, recipient, amount,
timestamp.  amount and timestamp are python floats, embedded by their
decimal rendering. -/
structure Transaction where
  sender : String
  recipient : String
  amount : String
  timestamp : String
deriving DecidableEq

/-- The dict produced by Transaction.to_dict (blockchain.py lines 18-24),
and consumed by Transaction.from_dict. -/
structure TxData where
  sender : String
  recipient : String
  amount : String
  timestamp : String
deriving DecidableEq

/-- Transaction.to_dict (blockchain.py lines 18-24). -/
def Transaction.to_dict (t : Transaction) : TxData :=
  ⟨t.sender, t.recipient, t.amount, t.timestamp⟩

/-- Transaction.from_dict (blockchain.py lines 26-33). -/
def Transaction.from_dict (d : TxData) : Transaction :=
  ⟨d.sender, d.recipient, d.amount, d.timestamp⟩

/-- json.dumps of one transaction dict with sort_keys=True and the
default separators: keys in alphabetical order (amount, recipient,
sender, timestamp), a space after each colon and comma; string values
quoted (sender and recipient are hex addresses, needing no escapes),
numeric values unquoted. -/
def jsonDumpsTxDict (t : TxData) : String :=
  ("\x7b\"amount\": ") ++ t.amount ++ (", \"recipient\": \"") ++ t.recipient ++
    ("\", \"sender\": \"") ++ t.sender ++ ("\", \"timestamp\": ") ++ t.timestamp ++ ("\x7d")

/-- json.dumps of a list of transaction dicts with sort_keys=True and the
default separators (blockchain.py lines 55-57). -/
def jsonDumpsTxList (l : List TxData) : String :=
  ("[") ++ String.intercalate (", ") (l.map jsonDumpsTxDict) ++ ("]")

/-- The transactions_str of Block.calculate_hash (blockchain.py lines
55-57): json.dumps([tx.to_dict() for tx in transactions], sort_keys=True). -/
def transactionsStr (transactions : List Transaction) : String :=
  jsonDumpsTxList (transactions.map Transaction.to_dict)

/-- Block (blockchain.py lines 39-51): previous_hash, timestamp, nonce,
transactions and the stored hash field. -/
structure Block where
  previous_hash : String
  timestamp : String
  nonce : Nat
  transactions : List Transaction
  hash : String
deriving DecidableEq

/-- The block_string of Block.calculate_hash (blockchain.py lines 58-60):
the f-string previous_hash, timestamp, nonce, transactions_str. -/
def block_string (previous_hash timestamp : String) (nonce : Nat)
    (transactions : List Transaction) : String :=
  previous_hash ++ timestamp ++ toString nonce ++ transactionsStr transactions

/-- Block.calculate_hash (blockchain.py lines 53-61): the digest of the
block_string built from the four content fields. -/
def Block.calculate_hash (H : String → String) (b : Block) : String :=
  H (block_string b.previous_hash b.timestamp b.nonce b.transactions)

/-- The constructor Block.__init__ (blockchain.py lines 40-51): stores
the four content fields and sets hash to the computed digest. -/
def Block.make (H : String → String) (previous_hash : String)
    (transactions : List Transaction) (timestamp : String) (nonce : Nat) : Block :=
  { previous_hash := previous_hash
    timestamp := timestamp
    nonce := nonce
    transactions := transactions
    hash := H (block_string previous_hash timestamp nonce transactions) }

/-- The dict produced by Block.to_dict (blockchain.py lines 63-70), also
the block_data dict a winning worker reports (pow_parallel.py lines 45-51)
and the persisted per-block representation. -/
structure BlockData where
  previous_hash : String
  timestamp : String
  nonce : Nat
  transactions : List TxData
  hash : String
deriving DecidableEq

/-- Block.to_dict (blockchain.py lines 63-70). -/
def Block.to_dict (b : Block) : BlockData :=
  ⟨b.previous_hash, b.timestamp, b.nonce, b.transactions.map Transaction.to_dict, b.hash⟩

/-- Block.from_dict (blockchain.py lines 72-82): rebuild the transactions,
run the constructor (which computes a digest), then overwrite the hash
field with the stored value. -/
def Block.from_dict (H : String → String) (d : BlockData) : Block :=
  let transactions := d.transactions.map Transaction.from_dict
  let block := Block.make H d.previous_hash transactions d.timestamp d.nonce
  { block with hash := d.hash }

/-- The persisted chain representation (blockchain.py lines 150-154):
a length and an ordered sequence of block dicts. -/
structure ChainData where
  length : Nat
  blocks : List BlockData
deriving DecidableEq

/-- Blockchain: the block sequence owned by the chain.  The python
constructor appends a genesis block; Blockchain.from_dict discards it. -/
structure Blockchain where
  chain : List Block
deriving DecidableEq

/-- Blockchain.from_dict (blockchain.py lines 156-162): builds a fresh
Blockchain, clears its chain (discarding the generated genesis block) and
appends Block.from_dict of every stored block dict, in order, with no
digest check of any kind. -/
def Blockchain.from_dict (H : String → String) (data : ChainData) : Blockchain :=
  { chain := data.blocks.map (Block.from_dict H) }

/-- The checks of validate_block after the linkage check (blockchain.py
lines 127-148): hash recomputation, difficulty, non-emptiness, with an
early return and a printed diagnostic at the first failure.  Returns the
boolean result together with the printed lines. -/
def validateRest (H : String → String) (block : Block) (difficulty : Nat) :
    Bool × List String :=
  let recalculated_hash := Block.calculate_hash H block
  if recalculated_hash ≠ block.hash then
    (false, [("Hash mismatch: expected ") ++ pySlice recalculated_hash 16 ++
      ("..., got ") ++ pySlice block.hash 16 ++ ("...")])
  else if pyStartsWith block.hash (zeros difficulty) = false then
    (false, [("Hash does not meet difficulty requirement (needs ") ++
      toString difficulty ++ (" leading zeros)")])
  else if block.transactions.isEmpty then
    (false, [("Block has no transactions")])
  else
    (true, [])

/-- Blockchain.validate_block (blockchain.py lines 116-148): linkage check
against the current tip when the chain is non-empty, then the remaining
checks, early-returning at the first failure.  Returns the boolean result
together with the printed diagnostic lines. -/
def validateBlockRun (H : String → String) (chain : List Block) (block : Block)
    (difficulty : Nat) : Bool × List String :=
  match chain.getLast? with
  | some tip =>
    if block.previous_hash ≠ tip.hash then
      (false, [("Invalid previous_hash: expected ") ++ pySlice tip.hash 16 ++
        ("..., got ") ++ pySlice block.previous_hash 16 ++ ("...")])
    else validateRest H block difficulty
  | none => validateRest H block difficulty

/-- The boolean result of Blockchain.validate_block. -/
def validate_block (H : String → String) (chain : List Block) (block : Block)
    (difficulty : Nat) : Bool :=
  (validateBlockRun H chain block difficulty).1

/-- Blockchain.add_block (blockchain.py lines 108-114): validate, and on
failure print a final generic line and leave the chain unchanged; on
success append the block.  Returns the new chain and the boolean result,
together with all printed lines. -/
def addBlockRun (H : String → String) (chain : List Block) (block : Block)
    (difficulty : Nat) : (List Block × Bool) × List String :=
  let v := validateBlockRun H chain block difficulty
  if v.1 then ((chain ++ [block], true), v.2)
  else ((chain, false), v.2 ++ [("Block validation failed")])

/-- The state-and-result part of Blockchain.add_block. -/
def add_block (H : String → String) (chain : List Block) (block : Block)
    (difficulty : Nat) : List Block × Bool :=
  (addBlockRun H chain block difficulty).1

/-- Whether nonce n wins at the given difficulty: the digest of the block
built from the fixed base and n starts with the required zeros.  This is
the success test of the loop bodies of mine_block and worker_mine. -/
def goodNonce (H : String → String) (previous_hash : String)
    (transactions : List Transaction) (timestamp : String) (difficulty : Nat)
    (n : Nat) : Bool :=
  pyStartsWith (H (block_string previous_hash timestamp n transactions)) (zeros difficulty)

/-- The while-condition of mine_block (blockchain.py line 197):
max_nonce is None or nonce < max_nonce. -/
def mineCond (max_nonce : Option Nat) (nonce : Nat) : Bool :=
  match max_nonce with
  | none => true
  | some m => nonce < m

/-- The while-loop of mine_block (blockchain.py lines 197-209), fuel
indexed.  State: current nonce and nonces_tested so far.  Returns none
when fuel runs out before the loop returns; some (some block, tested) on
success; some (none, tested) when the nonce reaches max_nonce.  The
progress callback of the source is purely observational (it only prints)
and is not modelled. -/
def mineLoop (H : String → String) (previous_hash : String)
    (transactions : List Transaction) (requiredPfx timestamp : String)
    (max_nonce : Option Nat) : Nat → Nat → Nat → Option (Option Block × Nat)
  | 0, _, _ => none
  | fuel + 1, nonce, tested =>
    if mineCond max_nonce nonce then
      if pyStartsWith (Block.make H previous_hash transactions timestamp nonce).hash
          requiredPfx then
        some (some (Block.make H previous_hash transactions timestamp nonce), tested + 1)
      else
        mineLoop H previous_hash transactions requiredPfx timestamp max_nonce
          fuel (nonce + 1) (tested + 1)
    else
      some (none, tested)

/-- mine_block (blockchain.py lines 184-209).  The timestamp the source
reads from time.time() is passed as a parameter. -/
def mine_block (H : String → String) (previous_hash : String)
    (transactions : List Transaction) (difficulty : Nat) (timestamp : String)
    (start_nonce : Nat) (max_nonce : Option Nat) (fuel : Nat) :
    Option (Option Block × Nat) :=
  mineLoop H previous_hash transactions (zeros difficulty) timestamp max_nonce
    fuel start_nonce 0

/-- The result dict a worker puts on the queue (pow_parallel.py lines
40-53 and 60-64).  The non-winning report has no nonce, hash or
block_data keys, modelled as none fields. -/
structure WorkerResult where
  worker_id : Nat
  found : Bool
  nonce : Option Nat
  hash : Option String
  block_data : Option BlockData
  nonces_tested : Nat
deriving DecidableEq

/-- The while-loop of worker_mine (pow_parallel.py lines 34-68), fuel
indexed.  State: current nonce and nonces_tested so far.  Also returns
the list of nonces the worker tested, in order.  The write to found_flag
on a win is a side effect on shared state outside this worker; the values
the worker reads at its periodic checks come from the oracle flagAt. -/
def workerLoop (H : String → String) (workerId : Nat) (previous_hash : String)
    (transactions : List Transaction) (requiredPfx timestamp : String)
    (step : Nat) (flagAt : Nat → Bool) :
    Nat → Nat → Nat → Option WorkerResult × List Nat
  | 0, _, _ => (none, [])
  | fuel + 1, nonce, tested =>
    if pyStartsWith (Block.make H previous_hash transactions timestamp nonce).hash
        requiredPfx then
      (some { worker_id := workerId, found := true, nonce := some nonce,
              hash := some (Block.make H previous_hash transactions timestamp nonce).hash,
              block_data := some (Block.to_dict
                (Block.make H previous_hash transactions timestamp nonce)),
              nonces_tested := tested + 1 }, [nonce])
    else if (tested + 1) % 10000 == 0 && flagAt (tested + 1) then
      (some { worker_id := workerId, found := false, nonce := none,
              hash := none, block_data := none,
              nonces_tested := tested + 1 }, [nonce])
    else
      ((workerLoop H workerId previous_hash transactions requiredPfx
          timestamp step flagAt fuel (nonce + step) (tested + 1)).1,
        nonce :: (workerLoop H workerId previous_hash transactions requiredPfx
          timestamp step flagAt fuel (nonce + step) (tested + 1)).2)

/-- worker_mine (pow_parallel.py lines 16-68): rebuild the transactions
from their dicts, then scan nonces start_nonce, start_nonce + step, ...
checking the stop flag every 10000 attempts. -/
def worker_mine (H : String → String) (worker_id : Nat) (previous_hash : String)
    (transactions_data : List TxData) (timestamp : String) (difficulty : Nat)
    (start_nonce step : Nat) (flagAt : Nat → Bool) (fuel : Nat) :
    Option WorkerResult × List Nat :=
  let transactions := transactions_data.map Transaction.from_dict
  workerLoop H worker_id previous_hash transactions (zeros difficulty) timestamp
    step flagAt fuel start_nonce 0

/-- The spawn of worker i by mine_block_parallel (pow_parallel.py lines
80-95): start_nonce is the worker id and step is the worker count. -/
def worker_mine_spawned (H : String → String) (previous_hash : String)
    (transactions_data : List TxData) (timestamp : String) (difficulty : Nat)
    (flagAt : Nat → Bool) (num_workers worker_id fuel : Nat) :
    Option WorkerResult × List Nat :=
  worker_mine H worker_id previous_hash transactions_data timestamp difficulty
    worker_id num_workers flagAt fuel

/-- The winner reconstruction of mine_block_parallel (pow_parallel.py
lines 110-124): rebuild the transactions from block_data, run the Block
constructor on the reported fields, then overwrite the hash field with
the reported hash. -/
def reconstructWinner (H : String → String) (block_data : BlockData) : Block :=
  let block_transactions := block_data.transactions.map Transaction.from_dict
  let found_block := Block.make H block_data.previous_hash block_transactions
    block_data.timestamp block_data.nonce
  { found_block with hash := block_data.hash }

/-- Modelled from the spec: the digest input of the original §4.1 claim,
one transaction record with fields in alphabetical order and no
extraneous whitespace (compact separators). -/
def specTxRecordCompact (t : TxData) : String :=
  ("\x7b\"amount\":") ++ t.amount ++ (",\"recipient\":\"") ++ t.recipient ++
    ("\",\"sender\":\"") ++ t.sender ++ ("\",\"timestamp\":") ++ t.timestamp ++ ("\x7d")

/-- Modelled from the spec: the serialized transaction sequence of the
original §4.1 claim, records joined with no extraneous whitespace. -/
def specSerializeCompact (l : List TxData) : String :=
  ("[") ++ String.intercalate (",") (l.map specTxRecordCompact) ++ ("]")

/-- Modelled from the spec: the full digest input of the original §4.1
claim, concatenating previous_hash, the timestamp decimal string, the
nonce decimal string, and the compactly serialized transactions. -/
def specDigestInputCompact (previous_hash timestamp : String) (nonce : Nat)
    (transactions : List Transaction) : String :=
  previous_hash ++ timestamp ++ toString nonce ++
    specSerializeCompact (transactions.map Transaction.to_dict)

/-- Modelled from the spec as amended: one transaction record with fields
in alphabetical order, a space after each colon and each comma (the
default JSON separators). -/
def specTxRecordSpaced (t : TxData) : String :=
  ("\x7b\"amount\": ") ++ t.amount ++ (", \"recipient\": \"") ++ t.recipient ++
    ("\", \"sender\": \"") ++ t.sender ++ ("\", \"timestamp\": ") ++ t.timestamp ++ ("\x7d")

/-- Modelled from the spec as amended: the serialized transaction
sequence, records joined by a comma and a space. -/
def specSerializeSpaced (l : List TxData) : String :=
  ("[") ++ String.intercalate (", ") (l.map specTxRecordSpaced) ++ ("]")

/-- Modelled from the spec as amended: the full digest input,
concatenating previous_hash, the timestamp decimal string, the nonce
decimal string, and the serialized transaction sequence. -/
def specDigestInputSpaced (previous_hash timestamp : String) (nonce : Nat)
    (transactions : List Transaction) : String :=
  previous_hash ++ timestamp ++ toString nonce ++
    specSerializeSpaced (transactions.map Transaction.to_dict)

/-- A concrete digest function for witnesses: the identity on strings. -/
def idHash (s : String) : String := s

/-- A concrete transaction for witnesses. -/
def t1 : Transaction := ⟨("s"), ("r"), ("1.0"), ("2.0")⟩

/-- A concrete block violating both the hash-recomputation condition and
the non-empty-transactions condition. -/
def bad0 : Block := ⟨("p"), ("1.0"), 0, [], ("bad")⟩

/-- A concrete block passing every validation condition against the empty
chain at difficulty 0. -/
def good1 : Block := Block.make idHash ("p") [t1] ("1.0") 0

/-- A concrete constructor-built block for witnesses. -/
def b0 : Block := Block.make idHash ("p") [] ("1.0") 0

/-- The dict of b0. -/
def bd0 : BlockData := Block.to_dict b0

/-- The winning worker report for b0. -/
def r0 : WorkerResult :=
  { worker_id := 0, found := true, nonce := some 0, hash := some b0.hash,
    block_data := some bd0, nonces_tested := 1 }

/-- A persisted block whose stored hash does not match its recomputed
digest. -/
def bdBad : BlockData := ⟨("p"), ("1.0"), 0, [], ("bogus")⟩

/-- A persisted chain containing bdBad. -/
def cdBad : ChainData := ⟨1, [bdBad]⟩

/-- Transaction.from_dict inverts Transaction.to_dict. -/
theorem tx_roundtrip (t : Transaction) :
    Transaction.from_dict (Transaction.to_dict t) = t := rfl

/-- Mapping a transaction list through the dict form and back is the
identity: this is the multiprocessing serialization boundary. -/
theorem txs_roundtrip (l : List Transaction) :
    (l.map Transaction.to_dict).map Transaction.from_dict = l := by
  induction l with
  | nil => rfl
  | cons t ts ih => simp [ih, tx_roundtrip]

/-- A constructor-built block satisfies the hash contract by construction. -/
theorem make_calculate_hash (H : String → String) (p : String)
    (txs : List Transaction) (ts : String) (n : Nat) :
    Block.calculate_hash H (Block.make H p txs ts n) = (Block.make H p txs ts n).hash := rfl

/-- The empty required difficulty value matches every digest. -/
theorem pyStartsWith_zeros_zero (s : String) : pyStartsWith s (zeros 0) = true := by
  show List.isPrefixOf [] s.data = true
  cases s.data <;> rfl

/-- The winning test of the mining loops, phrased through goodNonce. -/
theorem good_eq (H : String → String) (p : String) (txs : List Transaction)
    (ts : String) (d n : Nat) :
    pyStartsWith (Block.make H p txs ts n).hash (zeros d) = goodNonce H p txs ts d n := rfl

/-- C2: for every chain state, candidate block and non-negative
difficulty, validate_block returns success exactly when all four
conditions hold: linkage to the tip when the chain is non-empty, digest
recomputation matching the stored hash, the required count of leading
zero characters, and a non-empty transaction list. -/
theorem validate_block_iff (H : String → String) (chain : List Block) (block : Block)
    (difficulty : Nat) :
    validate_block H chain block difficulty = true ↔
      ((∀ tip, chain.getLast? = some tip → block.previous_hash = tip.hash) ∧
        Block.calculate_hash H block = block.hash ∧
        pyStartsWith block.hash (zeros difficulty) = true ∧
        block.transactions ≠ []) := by
  unfold validate_block validateBlockRun validateRest
  cases hl : chain.getLast? with
  | none =>
    simp only [hl]
    split_ifs with h1 h2 h3 <;>
      simp_all [List.isEmpty_iff]
  | some tip =>
    simp only [hl]
    split_ifs with h0 h1 h2 h3 <;>
      simp_all [List.isEmpty_iff]

/-- C3 (amended): when validation fails, add_block returns failure with
the chain unchanged and the block not appended, prints the final generic
line after the diagnostics of validate_block, and validate_block has
printed exactly one diagnostic, the one of the first violated condition
in check order (linkage, hash recomputation, difficulty, emptiness);
later checks are skipped. -/
theorem add_block_first_violation (H : String → String) (chain : List Block)
    (block : Block) (difficulty : Nat)
    (h : validate_block H chain block difficulty = false) :
    add_block H chain block difficulty = (chain, false) ∧
    (addBlockRun H chain block difficulty).2 =
      (validateBlockRun H chain block difficulty).2 ++ [("Block validation failed")] ∧
    ∃ msg, (validateBlockRun H chain block difficulty).2 = [msg] ∧
      ((∃ tip, chain.getLast? = some tip ∧ block.previous_hash ≠ tip.hash ∧
          msg = ("Invalid previous_hash: expected ") ++ pySlice tip.hash 16 ++
            ("..., got ") ++ pySlice block.previous_hash 16 ++ ("...")) ∨
        ((∀ tip, chain.getLast? = some tip → block.previous_hash = tip.hash) ∧
          Block.calculate_hash H block ≠ block.hash ∧
          msg = ("Hash mismatch: expected ") ++
            pySlice (Block.calculate_hash H block) 16 ++ ("..., got ") ++
            pySlice block.hash 16 ++ ("...")) ∨
        ((∀ tip, chain.getLast? = some tip → block.previous_hash = tip.hash) ∧
          Block.calculate_hash H block = block.hash ∧
          pyStartsWith block.hash (zeros difficulty) = false ∧
          msg = ("Hash does not meet difficulty requirement (needs ") ++
            toString difficulty ++ (" leading zeros)")) ∨
        ((∀ tip, chain.getLast? = some tip → block.previous_hash = tip.hash) ∧
          Block.calculate_hash H block = block.hash ∧
          pyStartsWith block.hash (zeros difficulty) = true ∧
          block.transactions = [] ∧
          msg = ("Block has no transactions"))) := by
  refine ⟨?_, ?_, ?_⟩
  · unfold add_block addBlockRun
    unfold validate_block at h
    simp [h]
  · unfold addBlockRun
    unfold validate_block at h
    simp [h]
  · unfold validate_block at h
    unfold validateBlockRun validateRest at h ⊢
    cases hl : chain.getLast? with
    | none =>
      simp only [hl] at h ⊢
      split_ifs at h ⊢ with h1 h2 h3 <;> simp_all [List.isEmpty_iff]
    | some tip =>
      simp only [hl] at h ⊢
      split_ifs at h ⊢ with h0 h1 h2 h3 <;> simp_all [List.isEmpty_iff]

/-- C3 counterexample: a concrete block violating both the hash
recomputation condition and the non-empty-transactions condition; the run
nevertheless emits no empty-block diagnostic at all, only the hash
mismatch one, so the checks do not all run unconditionally: validation
short-circuits at the first failure. -/
theorem add_block_short_circuits :
    bad0.transactions = [] ∧
    Block.calculate_hash idHash bad0 ≠ bad0.hash ∧
    ¬ (("Block has no transactions") ∈ (addBlockRun idHash [] bad0 0).2) ∧
    add_block idHash [] bad0 0 = ([], false) := by
  decide

/-- C3 witness: the amended theorem applied at a concrete rejected block. -/
theorem add_block_first_violation_witness :
    add_block idHash [] bad0 0 = ([], false) ∧
    (addBlockRun idHash [] bad0 0).2 =
      (validateBlockRun idHash [] bad0 0).2 ++ [("Block validation failed")] ∧
    ∃ msg, (validateBlockRun idHash [] bad0 0).2 = [msg] ∧
      ((∃ tip, ([] : List Block).getLast? = some tip ∧ bad0.previous_hash ≠ tip.hash ∧
          msg = ("Invalid previous_hash: expected ") ++ pySlice tip.hash 16 ++
            ("..., got ") ++ pySlice bad0.previous_hash 16 ++ ("...")) ∨
        ((∀ tip, ([] : List Block).getLast? = some tip → bad0.previous_hash = tip.hash) ∧
          Block.calculate_hash idHash bad0 ≠ bad0.hash ∧
          msg = ("Hash mismatch: expected ") ++
            pySlice (Block.calculate_hash idHash bad0) 16 ++ ("..., got ") ++
            pySlice bad0.hash 16 ++ ("...")) ∨
        ((∀ tip, ([] : List Block).getLast? = some tip → bad0.previous_hash = tip.hash) ∧
          Block.calculate_hash idHash bad0 = bad0.hash ∧
          pyStartsWith bad0.hash (zeros 0) = false ∧
          msg = ("Hash does not meet difficulty requirement (needs ") ++
            toString 0 ++ (" leading zeros)")) ∨
        ((∀ tip, ([] : List Block).getLast? = some tip → bad0.previous_hash = tip.hash) ∧
          Block.calculate_hash idHash bad0 = bad0.hash ∧
          pyStartsWith bad0.hash (zeros 0) = true ∧
          bad0.transactions = [] ∧
          msg = ("Block has no transactions"))) :=
  add_block_first_violation idHash [] bad0 0 (by decide)

/-- C4 counterexample: at a concrete one-transaction block the digest
input the code hashes differs from the no-extraneous-whitespace
serialization the claim describes, because json.dumps uses the default
separators, which put a space after each comma and colon. -/
theorem digest_input_has_whitespace :
    block_string ("p") ("1.0") 0 [t1] ≠ specDigestInputCompact ("p") ("1.0") 0 [t1] := by
  decide

/-- C4 (amended): the digest input is previous_hash, then the timestamp
decimal string, then the nonce decimal string, then the transaction
sequence serialized as records with fields in alphabetical order
(amount, recipient, sender, timestamp) joined with the default JSON
separators: a space after each colon and each comma. -/
theorem calculate_hash_digest_input (H : String → String) (b : Block) :
    Block.calculate_hash H b =
      H (specDigestInputSpaced b.previous_hash b.timestamp b.nonce b.transactions) := by
  have hrec : jsonDumpsTxDict = specTxRecordSpaced := rfl
  unfold Block.calculate_hash block_string transactionsStr jsonDumpsTxList
  unfold specDigestInputSpaced specSerializeSpaced
  rw [hrec]

/-- C8: the hash-contract round trip.  A constructor-built block (mining
builds blocks only this way) always satisfies it, and a block rebuilt by
Block.from_dict, whose hash field is overwritten with the stored value,
satisfies it exactly when the stored value is the digest recomputed from
the four stored content fields. -/
theorem hash_contract_round_trip (H : String → String) :
    (∀ (p : String) (txs : List Transaction) (ts : String) (n : Nat),
      Block.calculate_hash H (Block.make H p txs ts n) = (Block.make H p txs ts n).hash) ∧
    (∀ d : BlockData,
      d.hash = H (block_string d.previous_hash d.timestamp d.nonce
          (d.transactions.map Transaction.from_dict)) →
      Block.calculate_hash H (Block.from_dict H d) = (Block.from_dict H d).hash) := by
  constructor
  · intro p txs ts n
    rfl
  · intro d hd
    unfold Block.from_dict Block.calculate_hash Block.make
    simp only []
    exact hd.symm

/-- C8 witness: the round trip at a concrete constructor-built block and
at its consistent persisted form. -/
theorem hash_contract_round_trip_witness :
    Block.calculate_hash idHash (Block.from_dict idHash bd0) =
      (Block.from_dict idHash bd0).hash :=
  (hash_contract_round_trip idHash).2 bd0 (by decide)

/-- C9 counterexample: a persisted chain holding a block whose stored
hash is not its recomputed digest is loaded successfully by
Blockchain.from_dict; the loaded chain has one block and that block fails
the digest recomputation. -/
theorem from_dict_accepts_bad_hash :
    (Blockchain.from_dict idHash cdBad).chain.length = 1 ∧
    (Blockchain.from_dict idHash cdBad).chain.map
      (fun b => Block.calculate_hash idHash b == b.hash) = [false] := by
  decide

/-- C9 (amended): reading a persisted chain back always succeeds and
reconstructs every stored block verbatim, the hash field taken from the
stored value with no digest check at load time; a stored hash that does
not match the recomputed digest is therefore loaded as-is, and the
mismatch can only be caught later by chain validation. -/
theorem from_dict_loads_verbatim (H : String → String) (data : ChainData) :
    (Blockchain.from_dict H data).chain = data.blocks.map (Block.from_dict H) ∧
    (Blockchain.from_dict H data).chain.map Block.hash = data.blocks.map BlockData.hash := by
  constructor
  · rfl
  · unfold Blockchain.from_dict
    simp only [List.map_map]
    induction data.blocks with
    | nil => rfl
    | cons d ds ih => simp_all [Block.from_dict]

/-- On success the mining loop returned the block built at the first
winning nonce at or after its starting nonce, and counted every nonce
from the start through the winner. -/
theorem mineLoop_success_char (H : String → String) (p : String)
    (txs : List Transaction) (pfx ts : String) (maxN : Option Nat) :
    ∀ (fuel nonce tested : Nat) (b : Block) (t : Nat),
      mineLoop H p txs pfx ts maxN fuel nonce tested = some (some b, t) →
      ∃ k, b = Block.make H p txs ts (nonce + k) ∧
        pyStartsWith (Block.make H p txs ts (nonce + k)).hash pfx = true ∧
        (∀ j, j < k → pyStartsWith (Block.make H p txs ts (nonce + j)).hash pfx = false) ∧
        t = tested + k + 1 := by
  intro fuel
  induction fuel with
  | zero =>
    intro nonce tested b t h
    simp [mineLoop] at h
  | succ f ih =>
    intro nonce tested b t h
    simp only [mineLoop] at h
    split at h
    · split at h
      · simp only [Option.some.injEq, Prod.mk.injEq] at h
        obtain ⟨hb, ht⟩ := h
        refine ⟨0, ?_, ?_, ?_, ?_⟩
        · rw [Nat.add_zero]
          exact hb.symm
        · rw [Nat.add_zero]
          assumption
        · intro j hj
          omega
        · omega
      · obtain ⟨k, hb, hgood, hmin, ht⟩ := ih (nonce + 1) (tested + 1) b t h
        refine ⟨k + 1, ?_, ?_, ?_, ?_⟩
        · rw [hb]
          congr 1
          omega
        · have harg : nonce + (k + 1) = nonce + 1 + k := by omega
          rw [harg]
          exact hgood
        · intro j hj
          cases j with
          | zero =>
            rw [Nat.add_zero]
            simp_all
          | succ j =>
            have harg : nonce + (j + 1) = nonce + 1 + j := by omega
            rw [harg]
            exact hmin j (by omega)
        · omega
    · simp at h

/-- When no nonce from the starting nonce up to the bound wins, the
mining loop with enough fuel stops at the bound, reporting exactly the
number of nonces it tested. -/
theorem mineLoop_exhaust_char (H : String → String) (p : String)
    (txs : List Transaction) (pfx ts : String) (m : Nat) :
    ∀ (fuel nonce tested : Nat),
      (∀ n, n < m → nonce ≤ n → pyStartsWith (Block.make H p txs ts n).hash pfx = false) →
      m - nonce < fuel →
      mineLoop H p txs pfx ts (some m) fuel nonce tested =
        some (none, tested + (m - nonce)) := by
  intro fuel
  induction fuel with
  | zero =>
    intro nonce tested hno hf
    omega
  | succ f ih =>
    intro nonce tested hno hf
    simp only [mineLoop]
    by_cases hlt : nonce < m
    · have hc : mineCond (some m) nonce = true := by
        simp [mineCond, hlt]
      rw [if_pos hc]
      have hw : pyStartsWith (Block.make H p txs ts nonce).hash pfx = false :=
        hno nonce hlt (Nat.le_refl _)
      rw [if_neg (by simp [hw])]
      rw [ih (nonce + 1) (tested + 1) (fun n hn hge => hno n hn (by omega)) (by omega)]
      have harith : tested + 1 + (m - (nonce + 1)) = tested + (m - nonce) := by omega
      rw [harith]
    · have hc : mineCond (some m) nonce = false := by
        simp only [mineCond, decide_eq_false_iff_not]
        omega
      rw [if_neg (by simp [hc])]
      have hz : m - nonce = 0 := by omega
      rw [hz, Nat.add_zero]

/-- C5: for a fixed input tuple, a successful sequential search returns
the block at the smallest winning nonce at or after start_nonce; any two
successful runs on the same tuple return the same nonce; and at
difficulty 0 the search returns at once with nonce start_nonce, after
one test. -/
theorem mine_block_least (H : String → String) (p : String)
    (txs : List Transaction) (d : Nat) (ts : String) (start : Nat)
    (maxN : Option Nat) :
    (∀ fuel b t, mine_block H p txs d ts start maxN fuel = some (some b, t) →
      start ≤ b.nonce ∧ goodNonce H p txs ts d b.nonce = true ∧
      ∀ m, start ≤ m → m < b.nonce → goodNonce H p txs ts d m = false) ∧
    (∀ fuel fuel2 b t b2 t2,
      mine_block H p txs d ts start maxN fuel = some (some b, t) →
      mine_block H p txs d ts start maxN fuel2 = some (some b2, t2) →
      b.nonce = b2.nonce) ∧
    (∀ fuel, 0 < fuel → (∀ m, maxN = some m → start < m) →
      mine_block H p txs 0 ts start maxN fuel =
        some (some (Block.make H p txs ts start), 1)) := by
  have main : ∀ fuel b t, mine_block H p txs d ts start maxN fuel = some (some b, t) →
      start ≤ b.nonce ∧ goodNonce H p txs ts d b.nonce = true ∧
      ∀ m, start ≤ m → m < b.nonce → goodNonce H p txs ts d m = false := by
    intro fuel b t h
    obtain ⟨k, hb, hgood, hmin, _⟩ :=
      mineLoop_success_char H p txs (zeros d) ts maxN fuel start 0 b t h
    have hn : b.nonce = start + k := by rw [hb]; rfl
    refine ⟨by omega, ?_, ?_⟩
    · rw [hn, ← good_eq]
      exact hgood
    · intro m hm1 hm2
      have hj : m = start + (m - start) := by omega
      rw [hj, ← good_eq]
      exact hmin (m - start) (by omega)
  refine ⟨main, ?_, ?_⟩
  · intro fuel fuel2 b t b2 t2 h1 h2
    obtain ⟨_, hg1, hmin1⟩ := main fuel b t h1
    obtain ⟨_, hg2, hmin2⟩ := main fuel2 b2 t2 h2
    rcases Nat.lt_trichotomy b.nonce b2.nonce with hlt | heq | hgt
    · have := hmin2 b.nonce (by omega) hlt
      simp_all
    · exact heq
    · have := hmin1 b2.nonce (by omega) hgt
      simp_all
  · intro fuel hf hm
    cases fuel with
    | zero => omega
    | succ f =>
      have hc : mineCond maxN start = true := by
        cases hmx : maxN with
        | none => rfl
        | some m =>
          simp only [mineCond, decide_eq_true_eq]
          exact hm m hmx
      unfold mine_block
      simp only [mineLoop]
      rw [if_pos hc, if_pos (pyStartsWith_zeros_zero _)]

/-- C5 witness: a concrete difficulty-0 run returning at once with the
start nonce. -/
theorem mine_block_least_witness :
    mine_block idHash ("p") [] 0 ("1.0") 0 none 1 =
      some (some (Block.make idHash ("p") [] ("1.0") 0), 1) :=
  (mine_block_least idHash ("p") [] 0 ("1.0") 0 none).2.2 1 (by decide)
    (fun m hm => Option.noConfusion hm)

/-- C6: when no nonce from start_nonce up to a finite max_nonce wins, the
sequential search terminates, returns no block, and reports the number of
candidates tested, namely max_nonce minus start_nonce. -/
theorem mine_block_exhausts (H : String → String) (p : String)
    (txs : List Transaction) (d : Nat) (ts : String) (start m fuel : Nat)
    (hno : ∀ n, n < m → start ≤ n → goodNonce H p txs ts d n = false)
    (hfuel : m - start < fuel) :
    mine_block H p txs d ts start (some m) fuel = some (none, m - start) := by
  unfold mine_block
  have h := mineLoop_exhaust_char H p txs (zeros d) ts m fuel start 0
    (fun n hn hge => by rw [good_eq]; exact hno n hn hge) hfuel
  rw [h]
  rw [Nat.zero_add]

/-- C6 witness: a concrete bounded run with an unreachable difficulty
fails after testing exactly the bounded range. -/
theorem mine_block_exhausts_witness :
    mine_block idHash ("x") [] 1 ("1.0") 0 (some 2) 3 = some (none, 2) :=
  mine_block_exhausts idHash ("x") [] 1 ("1.0") 0 2 3 (by decide) (by decide)

/-- C10: a successful sequential search reports a nonces_tested count of
exactly the winning nonce minus start_nonce plus one: the nonces from
start_nonce through the winner inclusive, none skipped, none repeated. -/
theorem mine_block_tested_count (H : String → String) (p : String)
    (txs : List Transaction) (d : Nat) (ts : String) (start : Nat)
    (maxN : Option Nat) (fuel : Nat) (b : Block) (t : Nat)
    (h : mine_block H p txs d ts start maxN fuel = some (some b, t)) :
    start ≤ b.nonce ∧ t = b.nonce - start + 1 := by
  obtain ⟨k, hb, _, _, ht⟩ :=
    mineLoop_success_char H p txs (zeros d) ts maxN fuel start 0 b t h
  have hn : b.nonce = start + k := by rw [hb]; rfl
  omega

/-- C10 witness: the count formula at a concrete successful run. -/
theorem mine_block_tested_count_witness :
    (0 : Nat) ≤ b0.nonce ∧ (1 : Nat) = b0.nonce - 0 + 1 :=
  mine_block_tested_count idHash ("p") [] 0 ("1.0") 0 none 1 b0 1 (by decide)

/-- A winning worker report carries block_data that is exactly the dict
of a constructor-built block whose digest satisfies the required
difficulty value. -/
theorem workerLoop_found_char (H : String → String) (wid : Nat) (p : String)
    (txs : List Transaction) (pfx ts : String) (step : Nat) (flagAt : Nat → Bool) :
    ∀ (fuel nonce tested : Nat) (r : WorkerResult) (tr : List Nat),
      workerLoop H wid p txs pfx ts step flagAt fuel nonce tested = (some r, tr) →
      r.found = true →
      ∃ n, r.block_data = some (Block.to_dict (Block.make H p txs ts n)) ∧
        pyStartsWith (Block.make H p txs ts n).hash pfx = true := by
  intro fuel
  induction fuel with
  | zero =>
    intro nonce tested r tr h hf
    simp [workerLoop] at h
  | succ f ih =>
    intro nonce tested r tr h hf
    simp only [workerLoop] at h
    split at h
    · simp only [Prod.mk.injEq, Option.some.injEq] at h
      obtain ⟨h1, h2⟩ := h
      refine ⟨nonce, ?_, by assumption⟩
      rw [← h1]
    · split at h
      · simp only [Prod.mk.injEq, Option.some.injEq] at h
        obtain ⟨h1, h2⟩ := h
        rw [← h1] at hf
        simp at hf
      · simp only [Prod.mk.injEq] at h
        obtain ⟨h1, h2⟩ := h
        exact ih (nonce + step) (tested + 1) r
          (workerLoop H wid p txs pfx ts step flagAt f (nonce + step) (tested + 1)).2
          (by rw [← h1]) hf

/-- Every nonce in the trace a worker loop tests is congruent to its
starting nonce modulo its step. -/
theorem workerLoop_trace_mod (H : String → String) (wid : Nat) (p : String)
    (txs : List Transaction) (pfx ts : String) (step : Nat) (flagAt : Nat → Bool) :
    ∀ (fuel nonce tested n : Nat),
      n ∈ (workerLoop H wid p txs pfx ts step flagAt fuel nonce tested).2 →
      n % step = nonce % step := by
  intro fuel
  induction fuel with
  | zero =>
    intro nonce tested n h
    simp [workerLoop] at h
  | succ f ih =>
    intro nonce tested n h
    simp only [workerLoop] at h
    split at h
    · simp at h
      rw [h]
    · split at h
      · simp at h
        rw [h]
      · simp only [List.mem_cons] at h
        rcases h with h | h
        · rw [h]
        · rw [ih (nonce + step) (tested + 1) n h, Nat.add_mod_right]

/-- A worker loop with any fuel at all tests its starting nonce first. -/
theorem workerLoop_trace_head (H : String → String) (wid : Nat) (p : String)
    (txs : List Transaction) (pfx ts : String) (step : Nat) (flagAt : Nat → Bool) :
    ∀ (fuel nonce tested : Nat), 0 < fuel →
      ((workerLoop H wid p txs pfx ts step flagAt fuel nonce tested).2).head? = some nonce := by
  intro fuel
  cases fuel with
  | zero =>
    intro nonce tested h
    omega
  | succ f =>
    intro nonce tested h
    simp only [workerLoop]
    split
    · rfl
    · split
      · rfl
      · rfl

/-- The winner reconstruction applied to the dict of a constructor-built
block gives back that block. -/
theorem reconstruct_to_dict_make (H : String → String) (p : String)
    (l : List Transaction) (ts : String) (n : Nat) :
    reconstructWinner H (Block.to_dict (Block.make H p l ts n)) = Block.make H p l ts n := by
  unfold reconstructWinner Block.to_dict Block.make
  simp [txs_roundtrip, Function.comp_def, tx_roundtrip]

/-- C1: whenever worker_mine returns a winning report, the block the
coordinator reconstructs from the reported fields, with its hash field
overwritten by the reported hash, has a recomputed digest equal to its
hash field, so the hash-mismatch check of validate_block passes on it;
its hash also satisfies the difficulty condition. -/
theorem worker_report_reconstruction (H : String → String) (wid : Nat)
    (p : String) (txsData : List TxData) (ts : String)
    (d start step : Nat) (flagAt : Nat → Bool) (fuel : Nat)
    (r : WorkerResult) (tr : List Nat) (bd : BlockData)
    (hrun : worker_mine H wid p txsData ts d start step flagAt fuel = (some r, tr))
    (hfound : r.found = true) (hbd : r.block_data = some bd) :
    Block.calculate_hash H (reconstructWinner H bd) = (reconstructWinner H bd).hash ∧
    pyStartsWith (reconstructWinner H bd).hash (zeros d) = true := by
  unfold worker_mine at hrun
  obtain ⟨n, hbdata, hwin⟩ := workerLoop_found_char H wid p
    (txsData.map Transaction.from_dict) (zeros d) ts step flagAt fuel start 0 r tr
    hrun hfound
  rw [hbd] at hbdata
  have hbd2 : bd = Block.to_dict (Block.make H p (txsData.map Transaction.from_dict) ts n) :=
    Option.some.inj hbdata
  rw [hbd2, reconstruct_to_dict_make]
  exact ⟨rfl, hwin⟩

/-- C1 witness: a concrete winning run at difficulty 0 whose
reconstructed winner satisfies the hash contract. -/
theorem worker_report_reconstruction_witness :
    Block.calculate_hash idHash (reconstructWinner idHash bd0) =
      (reconstructWinner idHash bd0).hash ∧
    pyStartsWith (reconstructWinner idHash bd0).hash (zeros 0) = true :=
  worker_report_reconstruction idHash 0 ("p") [] ("1.0") 0 0 1 (fun _ => false) 1
    r0 [0] bd0 (by decide) (by decide) (by decide)

/-- C7: worker i of N, spawned by the coordinator with start_nonce i and
step N, only ever tests nonces congruent to i modulo N, starting at i;
distinct residue classes are disjoint and every nonce lies in the class
of one of the N workers. -/
theorem worker_residue_partition (H : String → String) (p : String)
    (txsData : List TxData) (ts : String) (d : Nat) (flagAt : Nat → Bool)
    (N i fuel : Nat) (hN : 0 < N) (hi : i < N) :
    (∀ n ∈ (worker_mine_spawned H p txsData ts d flagAt N i fuel).2, n % N = i) ∧
    (0 < fuel →
      ((worker_mine_spawned H p txsData ts d flagAt N i fuel).2).head? = some i) ∧
    (∀ j, j < N → j ≠ i → ∀ n, n % N = i → ¬ n % N = j) ∧
    (∀ n : Nat, n % N < N) := by
  refine ⟨?_, ?_, ?_, ?_⟩
  · intro n hn
    have hmod := workerLoop_trace_mod H i p (txsData.map Transaction.from_dict)
      (zeros d) ts N flagAt fuel i 0 n hn
    rw [hmod, Nat.mod_eq_of_lt hi]
  · intro hf
    exact workerLoop_trace_head H i p (txsData.map Transaction.from_dict)
      (zeros d) ts N flagAt fuel i 0 hf
  · intro j hj hne n h1 h2
    exact hne (by omega)
  · intro n
    exact Nat.mod_lt _ hN

/-- C7 witness: worker 1 of 2 with a small fuel tests nonce 3, which lies
in its residue class. -/
theorem worker_residue_partition_witness : (3 : Nat) % 2 = 1 :=
  (worker_residue_partition idHash ("p") [] ("1.0") 1 (fun _ => false) 2 1 2
    (by decide) (by decide)).1 3 (by decide)

/-- C2 witness: the four conditions at a concrete block imply successful
validation. -/
theorem validate_block_iff_witness : validate_block idHash [] good1 0 = true :=
  (validate_block_iff idHash [] good1 0).mpr
    ⟨by simp, by decide, by decide, by decide⟩
